import Mathlib

/-!
Verification development for the GenerativeGNN repository.

The development shallowly embeds the graph-representation/batching layer
(`BaseGraph`, `BaseGraphUtils.init_batch_graph`,
`BaseGraphUtils.lap_positional_encoding` from `src/models.py`), the
walk-pooling link-feature extractor (`WalkPooling` from `src/models.py`)
and `Data.to_numpy_array` (from `src/gnn_comparison/datasets/data.py`).

Conventions of the embedding:
* torch tensors of rank 1, 2 and 3 are embedded as the `Tens` union of
  nested lists; no arithmetic is performed on entries by the batching
  layer, so `BaseGraph` is polymorphic in the scalar type.
* Python exceptions (KeyError, TypeError, AssertionError, shape errors
  raised by `torch.stack` / `torch.cat`) are embedded as
  `Except String`; the error string records the Python exception.
* real-valued computation (the walk-pooling attention arithmetic) is
  embedded over `Real`.
-/

/-- Union of the tensor ranks that the batching layer manipulates:
rank-1 (`t1`), rank-2 (`t2`) and rank-3 (`t3`) torch tensors. -/
inductive Tens (α : Type) where
  | t1 (v : List α)
  | t2 (m : List (List α))
  | t3 (c : List (List (List α)))
deriving DecidableEq, Repr

namespace Tens

/-- Embeds `tensor.shape[0]`, the leading dimension. -/
def shape0 : Tens α → Nat
  | t1 v => v.length
  | t2 m => m.length
  | t3 c => c.length

/-- Embeds `tensor.shape[1]`.  Reading `shape[1]` of a rank-1 tensor raises
an IndexError in Python (tuple index out of range). -/
def shape1E : Tens α → Except String Nat
  | t1 _ => .error "IndexError: tuple index out of range"
  | t2 m => .ok (m.headD []).length
  | t3 c => .ok (c.headD []).length

/-- Full shape of a rank-2 tensor: row count together with the row
lengths (torch tensors are rectangular, so this determines `(rows, cols)`). -/
def shape2 (m : List (List α)) : Nat × List Nat :=
  (m.length, m.map List.length)

end Tens

/-- Embeds `torch.stack(ts, dim=0)`: fails on an empty list or on a shape
mismatch, otherwise adds a leading axis.  Stacking rank-3 inputs does not
occur in the embedded code paths and is left as an error. -/
def torch_stack {α : Type} (ts : List (Tens α)) : Except String (Tens α) :=
  match ts with
  | [] => .error "RuntimeError: stack expects a non-empty TensorList"
  | t :: rest =>
    match t with
    | .t1 v =>
      if rest.all (fun u => match u with | .t1 w => w.length == v.length | _ => false) then
        .ok (.t2 (ts.map (fun u => match u with | .t1 w => w | _ => [])))
      else .error "RuntimeError: stack expects each tensor to be equal size"
    | .t2 m =>
      if rest.all (fun u => match u with | .t2 w => Tens.shape2 w == Tens.shape2 m | _ => false) then
        .ok (.t3 (ts.map (fun u => match u with | .t2 w => w | _ => [])))
      else .error "RuntimeError: stack expects each tensor to be equal size"
    | .t3 _ => .error "RuntimeError: rank-3 stacking not reached by the embedded code"

/-- Embeds `torch.stack` applied to a Python list that may contain `None`
entries (the batching loop appends `g.A`, which is `None` for a graph whose
adjacency was never set); `torch.stack` raises a TypeError on `None`. -/
def torch_stack_opt {α : Type} (ts : List (Option (Tens α))) : Except String (Tens α) :=
  if ts.all Option.isSome then
    torch_stack (ts.filterMap id)
  else
    .error "TypeError: expected Tensor, but got NoneType"

/--
Embedding of `BaseGraph` (src/models.py lines 39-101).  The dictionaries
`ndata` / `edata` are embedded by one optional field per key that the code
uses (`nfeat`, `pos_enc`, `eigvec`, `efeat`); a missing key is `none`.
-/
structure BaseGraph (α : Type) where
  graph_type : Option String
  adj_type : String
  batch : Bool
  batch_num : Option Nat
  A : Option (Tens α)
  label : Option (Tens α)
  node_num : Option Nat
  nfeat : Option (Tens α)
  pos_enc : Option (Tens α)
  eigvec : Option (Tens α)
  efeat : Option (Tens α)
deriving DecidableEq, Repr

namespace BaseGraph

/--
Embeds `BaseGraph.__init__` (src/models.py lines 43-55).  Note that line 44
stores the `graph_type` argument but line 52 unconditionally overwrites
`self.graph_type` with `None`, so the constructed record always has
`graph_type = none` regardless of the argument; the argument is therefore
not a field of the result.  (`pyg_graph` is not modelled: the only branch
that would consume it raises before using it, see
`BaseGraphUtils.init_batch_graph`.)
-/
def init (α : Type) (adj_type : String := "dense") (batch : Bool := false)
    (batch_num : Option Nat := none) : BaseGraph α :=
  { graph_type := none  -- line 52: `self.graph_type = None` overwrites the argument
    adj_type := adj_type
    batch := batch
    batch_num := batch_num
    A := none
    label := none
    node_num := none
    nfeat := none
    pos_enc := none
    eigvec := none
    efeat := none }

/-- Embeds `BaseGraph.get_node_features`: `self.ndata['nfeat']` raises a
KeyError when the key was never set. -/
def get_node_features (g : BaseGraph α) : Except String (Tens α) :=
  match g.nfeat with
  | some t => .ok t
  | none => .error "KeyError: nfeat"

/-- Embeds `BaseGraph.get_edge_features`: `self.edata['efeat']` raises a
KeyError when the key was never set. -/
def get_edge_features (g : BaseGraph α) : Except String (Tens α) :=
  match g.efeat with
  | some t => .ok t
  | none => .error "KeyError: efeat"

/--
Embeds `BaseGraph.set_node_feat` (src/models.py lines 92-97) including its
assertion
`assert not self.batch and node_feat.shape[0] == self.node_num or
 (self.batch and node_feat.shape[0] == self.batch_num and node_feat.shape[1] == self.node_num)`.
Python `and`/`or` precedence and short-circuiting are preserved:
`shape[1]` is only read when the batch conjunction is reached.  Comparing
an `int` with `None` yields `False` in Python, which the `Option Nat`
comparison reproduces.  The `.float()` conversion is the identity here.
-/
def set_node_feat (g : BaseGraph α) (node_feat : Tens α) :
    Except String (BaseGraph α) := do
  let c1 := !g.batch && (g.node_num == some node_feat.shape0)
  let c ←
    if c1 then pure true
    else if g.batch && (g.batch_num == some node_feat.shape0) then do
      let s1 ← node_feat.shape1E
      pure (g.node_num == some s1)
    else pure false
  if c then
    .ok { g with nfeat := some node_feat }
  else
    .error "AssertionError: set_node_feat"

/-- Embeds `BaseGraph.set_edge_feat` (no checks, `.float()` is identity). -/
def set_edge_feat (g : BaseGraph α) (edge_feat : Tens α) : BaseGraph α :=
  { g with efeat := some edge_feat }

end BaseGraph

namespace BaseGraphUtils

/-- Embeds `BaseGraphUtils.from_dense_A` (src/models.py lines 109-113):
`node_num` is `A.shape[0]` and the adjacency is stored densely. -/
def from_dense_A {α : Type} (A : List (List α)) : BaseGraph α :=
  { BaseGraph.init α "dense" with
    node_num := some A.length
    A := some (.t2 A) }

/--
Embeds the branch condition of `BaseGraphUtils.init_batch_graph`
(src/models.py line 155): the sparse pyg-union path is selected exactly
when `graphs[0].graph_type == 'pyg'` and the node counts are not all equal
to `graphs[0].node_num`.  The node-count loop (lines 150-153) compares
`g1.node_num` with every member, `None` included (`None != None` is
`False` in Python, matching `Option` equality).
-/
def selects_sparse {α : Type} (graphs : List (BaseGraph α)) : Bool :=
  match graphs with
  | [] => false
  | g1 :: _ =>
    (g1.graph_type == some "pyg") && !(graphs.all (fun g => g.node_num == g1.node_num))

/--
Embeds the collection loop of the dense branch (src/models.py
lines 171-182), in statement order per graph: `g.A` is appended
unconditionally, then `g.get_node_features()` (KeyError when absent), then
`g.get_edge_features()` (KeyError when absent; when present the value is a
set tensor, never `None`, so it is collected), then `pos_enc` (guarded by
a key test, never raising) and `label` (guarded by `is not None`).
Returns (batch_A, batch_node_feas, batch_edge_feas, batch_pos_encs,
batch_labels).
-/
def collect_batch {α : Type} (graphs : List (BaseGraph α)) :
    Except String
      (List (Option (Tens α)) × List (Tens α) × List (Tens α) ×
        List (Tens α) × List (Tens α)) :=
  match graphs with
  | [] => .ok ([], [], [], [], [])
  | g :: gs => do
    let nf ← g.get_node_features
    let ef ← g.get_edge_features
    let (as_, nfs, efs, pes, lbs) ← collect_batch gs
    .ok (g.A :: as_, nf :: nfs, ef :: efs,
          (match g.pos_enc with | some p => p :: pes | none => pes),
          (match g.label with | some l => l :: lbs | none => lbs))

/--
Embeds the dense-stacking branch of `init_batch_graph` (src/models.py
lines 160-207) for a non-empty input list with head `g1`.  The fresh
batched record has `batch=True`, `batch_num=len(graphs)` and — crucially —
`node_num=None` (it is never set); its `adj_type` is the constructor
default `"dense"`, so the `['dense','both']` sub-branch is always the one
taken (the `'coo'` and `NotImplementedError` arms are dead).  Statement
order is preserved: collect, stack `A`, set `A`, stack node features,
`set_node_feat` (whose assertion is reached with `node_num = None`), then
the positional-encoding / edge-feature / label stacking.
-/
def dense_branch {α : Type} (graphs : List (BaseGraph α)) (g1 : BaseGraph α) :
    Except String (BaseGraph α) := do
  let batched0 : BaseGraph α :=
    { BaseGraph.init α "dense" true (some graphs.length) with
      graph_type := g1.graph_type }
  let (batch_A, batch_node_feas, batch_edge_feas, batch_pos_encs, batch_labels) ←
    collect_batch graphs
  let A ← torch_stack_opt batch_A
  let batched1 := { batched0 with A := some A }
  let nf ← torch_stack batch_node_feas
  let batched2 ← batched1.set_node_feat nf
  let batched3 ←
    if batch_pos_encs.length > 0 then do
      let p ← torch_stack batch_pos_encs
      pure { batched2 with pos_enc := some p }
    else pure batched2
  let batched4 ←
    if batch_edge_feas.length > 0 then do
      let e ← torch_stack batch_edge_feas
      pure (batched3.set_edge_feat e)
    else pure batched3
  let batched5 ←
    if batch_labels.length > 0 then do
      let l ← torch_stack batch_labels
      pure { batched4 with label := some l }
    else pure batched4
  .ok batched5

/--
Embeds `BaseGraphUtils.init_batch_graph` (src/models.py lines 143-207).
An empty input violates the `assert len(graphs) > 0`.  When the sparse
pyg path is selected it calls `pyg_Batch.from_data_list` followed by
`BaseGraphUtils.from_pyg_graph`; `from_pyg_graph` (line 133) evaluates
`graph.num_nodes()` — but `num_nodes` is a property returning an `int`,
so the call raises `TypeError: 'int' object is not callable` before a
record can be produced.  That path is therefore embedded as this error.
-/
def init_batch_graph {α : Type} (graphs : List (BaseGraph α)) :
    Except String (BaseGraph α) :=
  match graphs with
  | [] => .error "AssertionError: len(graphs) > 0"
  | g1 :: rest =>
    if selects_sparse (g1 :: rest) then
      .error "TypeError: int object is not callable"
    else
      dense_branch (g1 :: rest) g1

/--
Modelled from the spec: `utils.calculate_normalized_laplacian` lives in
`utils.py`, which is not under `src/`; the spec (section 4.1) defines it as
the symmetric-normalized Laplacian `L = I - D^(-1/2) A D^(-1/2)` with `D`
the diagonal degree matrix of `A`.  It is consumed only by the external
eigendecomposition `np.linalg.eig`, whose output the theorems below
quantify over.
-/
noncomputable def calculate_normalized_laplacian (A : List (List ℝ)) :
    List (List ℝ) :=
  let n := A.length
  let deg := fun i => ((A.getD i []).take n).sum
  (List.range n).map fun i =>
    (List.range n).map fun j =>
      (if i == j then (1 : ℝ) else 0) -
        ((A.getD i []).getD j 0) / (Real.sqrt (deg i) * Real.sqrt (deg j))

/--
Embeds the argsort-and-reorder step of `lap_positional_encoding`
(src/models.py lines 218-220): `idx = EigVal.argsort()` followed by
`EigVal[idx]`, `EigVec[:,idx]`.  The eigenvector matrix is represented as
its list of columns (`cols[r]` is the eigenvector paired with `vals[r]`).
`argsort` is embedded as a stable sort of the (value, column) pairs by
value; any sorting permutation yields the reordering the code relies on,
and ties do not affect the stated properties.  `np.real` is the identity
here because the eigendecomposition output is modelled with real entries.
-/
def eig_argsorted {α : Type} [LinearOrder α] (vals : List α)
    (cols : List (List α)) : List α × List (List α) :=
  let pairs := (vals.zip cols).insertionSort (fun a b => a.1 ≤ b.1)
  (pairs.map Prod.fst, pairs.map Prod.snd)

/--
Embeds `BaseGraphUtils.lap_positional_encoding` (src/models.py
lines 209-224), parameterized by the output `(EigVal, EigVec)` of the
external `np.linalg.eig` call on the normalized Laplacian of `g.A` (the
code uses the Laplacian only as input to `eig`).  After the argsort
reordering the code stores `EigVec[:, 1:pos_enc_dim+1]` under both
`ndata['pos_enc']` and `ndata['eigvec']`; numpy slicing clamps the upper
bound, so the stored matrix has `min(pos_enc_dim, N-1)` columns and no
error is raised for any `pos_enc_dim`.  The stored matrix is represented
as its list of columns.
-/
def lap_positional_encoding {α : Type} [LinearOrder α] (g : BaseGraph α)
    (eigVal : List α) (eigVec : List (List α)) (pos_enc_dim : Nat) :
    BaseGraph α :=
  let s := eig_argsorted eigVal eigVec
  let pe := (s.2.drop 1).take pos_enc_dim
  { g with pos_enc := some (.t2 pe), eigvec := some (.t2 pe) }

end BaseGraphUtils

namespace GnnData

/-- Matrix produced by `np.ones((n, n))`; the entries of `Data.to_numpy_array`
are the float constant `1.0`, embedded as the rational `1`. -/
def ones_mat (n : Nat) : List (List ℚ) :=
  List.replicate n (List.replicate n 1)

/-- Functional update of one matrix entry, embedding the effect of a numpy
fancy-indexing assignment at a single (row, column) position. -/
def set_entry (m : List (List ℚ)) (i j : Nat) (v : ℚ) : List (List ℚ) :=
  m.set i ((m.getD i []).set j v)

/-- Matrix value computed by `Data.to_numpy_array`
(src/gnn_comparison/datasets/data.py lines 33-37): start from
`np.ones((N, N))`, then assign `1` at every `(edge_index[0][e], edge_index[1][e])`
position. -/
def to_numpy_array_mat (n : Nat) (edges : List (Nat × Nat)) : List (List ℚ) :=
  edges.foldl (fun m e => set_entry m e.1 e.2 1) (ones_mat n)

/--
Embeds `Data.to_numpy_array`.  `n` is `self.N = self.x.shape[0]` and
`edges` pairs `edge_index[0]` with `edge_index[1]` (the two rows of the
`2 x E` coordinate list have equal length by construction).  numpy raises
an IndexError when an index is out of range; otherwise the assignments
write `1` into the all-ones matrix.
-/
def to_numpy_array (n : Nat) (edges : List (Nat × Nat)) :
    Except String (List (List ℚ)) :=
  if edges.all (fun e => e.1 < n && e.2 < n) then
    .ok (to_numpy_array_mat n edges)
  else
    .error "IndexError: index out of bounds"

end GnnData

namespace WalkPooling

/-- Dot product of two real vectors. -/
noncomputable def dot (u v : List ℝ) : ℝ :=
  ((u.zip v).map (fun p => p.1 * p.2)).sum

/-- Affine layer `nn.Linear`: `y = W x + b`, with `W` given by rows. -/
noncomputable def linear (W : List (List ℝ)) (b : List ℝ) (x : List ℝ) :
    List ℝ :=
  (W.zip b).map (fun rb => dot rb.1 x + rb.2)

/-- Embeds `F.leaky_relu(x, s)` pointwise. -/
noncomputable def leakyRelu (s x : ℝ) : ℝ :=
  if x < 0 then s * x else x

/-- Embeds `torch.sigmoid`. -/
noncomputable def sigmoid (t : ℝ) : ℝ :=
  1 / (1 + Real.exp (-t))

/-- Entry `(i, j)` of a matrix given as a list of rows, defaulting to `0`
for positions the embedded code never reads out of range. -/
noncomputable def ent (m : List (List ℝ)) (i j : Nat) : ℝ :=
  (m.getD i []).getD j 0

/--
Learned parameters and hyperparameters of `WalkPooling.__init__`
(src/models.py lines 935-947): `hidden_channels`, `heads`, `walk_len`
and the four attention layers `lin_key1`, `lin_query1`, `lin_key2`,
`lin_query2` (weight matrix rows and bias vector each).
-/
structure WPParams where
  hidden_channels : Nat
  heads : Nat
  walk_len : Nat
  Wk1 : List (List ℝ)
  bk1 : List ℝ
  Wq1 : List (List ℝ)
  bq1 : List ℝ
  Wk2 : List (List ℝ)
  bk2 : List ℝ
  Wq2 : List (List ℝ)
  bq2 : List ℝ

/--
Embeds `WalkPooling.attention_mlp` (src/models.py lines 948-965).  As in
the source, the vector called `query` is produced by `lin_key1`/`lin_key2`
and the vector called `key` by `lin_query1`/`lin_query2` (the layer names
are swapped in the source).  `F.dropout(p=0.5, training=self.training)` is
the identity in evaluation mode and is embedded as the identity.  The raw
score of edge `e` and head `h` is the dot product of head-slice `h` of
`query[row[e]]` and of `key[col[e]]`, scaled by `1/sqrt(hidden_channels)`.
The result has one row per edge and one column per head.
-/
noncomputable def attention_mlp (p : WPParams) (x : List (List ℝ))
    (edge_index : List Nat × List Nat) : List (List ℝ) :=
  let query1 := x.map (fun v => (linear p.Wk1 p.bk1 v).map (leakyRelu 0.2))
  let key1 := x.map (fun v => (linear p.Wq1 p.bq1 v).map (leakyRelu 0.2))
  let query2 := query1.map (linear p.Wk2 p.bk2)
  let key2 := key1.map (linear p.Wq2 p.bq2)
  let headSlice := fun (v : List ℝ) (h : Nat) =>
    (v.drop (h * p.hidden_channels)).take p.hidden_channels
  (List.range edge_index.1.length).map fun e =>
    (List.range p.heads).map fun h =>
      dot (headSlice (query2.getD (edge_index.1.getD e 0) []) h)
          (headSlice (key2.getD (edge_index.2.getD e 0) []) h) /
        Real.sqrt (p.hidden_channels : ℝ)

/--
Embeds the call `F.softmax(weights, edge_index[1])` at src/models.py
line 977.  `torch.nn.functional.softmax` takes an integer `dim` as its
second positional argument; the torch argument parser accepts a Python
`int` (or a 0-dimensional integral tensor) there and rejects every other
tensor.  `edge_index[1]` is a 1-dimensional tensor of destination ids, so
the call raises `TypeError: softmax(): argument 'dim' must be int, not
Tensor` for every input — no grouped-by-destination softmax (which would
be `torch_geometric.utils.softmax`) is performed.
-/
def F_softmax_tensor_dim (_weights : List (List ℝ)) (_dim_tensor : List Nat) :
    Except String (List (List ℝ)) :=
  .error "TypeError: softmax argument dim must be int, not Tensor"

/-- Indices at which a boolean mask is `False`: embeds indexing a tensor
with `torch.logical_not(edge_mask)`. -/
def not_mask_idx (mask : List Bool) : List Nat :=
  (List.range mask.length).filter (fun e => !(mask.getD e true))

/-- Row selection `m[idxs]`. -/
def select_rows {β : Type} [Inhabited β] (m : List β) (idxs : List Nat) : List β :=
  idxs.map (fun e => m.getD e default)

/--
Embeds `WalkPooling.weight_encoder` (src/models.py lines 967-986) in
statement order: attention scores, `omega = sigmoid(weights[~edge_mask])`,
`num_nodes = max(edge_index)+1`, the plus-graph line
`weights_p = F.softmax(weights, edge_index[1])` — which raises a TypeError
for every input, see `F_softmax_tensor_dim` — and then the minus-graph
lines (per-destination max subtraction via `scatter_max`, `exp`, masking,
and normalization by the per-destination sum plus `1e-16`).
-/
noncomputable def weight_encoder (p : WPParams) (x : List (List ℝ))
    (edge_index : List Nat × List Nat) (edge_mask : List Bool) :
    Except String (List (List ℝ) × List (List ℝ) × List (List ℝ)) := do
  let weights := attention_mlp p x edge_index
  let omega := (select_rows weights (not_mask_idx edge_mask)).map
    (List.map sigmoid)
  let col := edge_index.2
  let num_nodes := (edge_index.1 ++ edge_index.2).foldl Nat.max 0 + 1
  -- edge weights of the plus graph
  let weights_p ← F_softmax_tensor_dim weights col
  -- edge weights of the minus graph
  let peerMax := fun (e h : Nat) =>
    ((List.range weights.length).filter
        (fun f => col.getD f 0 == col.getD e 0)).foldl
      (fun acc f => max acc (ent weights f h)) (ent weights e h)
  let wm1 := (List.range weights.length).map fun e =>
    (List.range p.heads).map fun h =>
      Real.exp (ent weights e h - peerMax e h) *
        (if edge_mask.getD e false then 1 else 0)
  let norm := fun (e h : Nat) =>
    (((List.range weights.length).filter
        (fun f => col.getD f 0 == col.getD e 0)).map
      (fun f => ent wm1 f h)).sum + 1e-16
  let weights_m := (List.range weights.length).map fun e =>
    (List.range p.heads).map fun h => ent wm1 e h / norm e h
  let _ := num_nodes
  return (weights_p, weights_m, omega)

/--
Embeds one `self.propagate(edge_index, x=x, norm=w)` step of the
`MessagePassing` base class with the default `add` aggregation and
source-to-target flow (src/models.py lines 1044-1050 and the `message`
function at lines 1083-1084): the new row for node `v` is the sum over
edges `e` with `col[e] = v` of `w[e] * x[row[e]]`.  The output has
`x.length` rows (the inferred node count) of width `max_nodes`.
-/
noncomputable def wp_propagate (row col : List Nat) (w : List ℝ)
    (x : List (List ℝ)) (max_nodes : Nat) : List (List ℝ) :=
  (List.range x.length).map fun v =>
    (List.range max_nodes).map fun c =>
      ((List.range row.length).map fun e =>
        if col.getD e 0 == v then w.getD e 0 * ent x (row.getD e 0) c
        else 0).sum

/-- Per-step statistics recorded inside the walk loop: the node-level,
link-level and graph-level rows for one head and one step. -/
structure StepStats where
  np : List ℝ
  nm : List ℝ
  lp : List ℝ
  lm : List ℝ
  gl : List ℝ

instance : Inhabited StepStats := ⟨⟨[], [], [], [], []⟩⟩

/--
Embeds the walk loop `for i in range(self.walk_len)` (src/models.py
lines 1048-1071) for one head: at each step propagate both indicator
matrices once more, then record the returning probabilities around `i`
and `j`, the transition probabilities between `i` and `j`, and the signed
graph-level trace.
-/
noncomputable def wp_steps (row col : List Nat) (wp wm : List ℝ)
    (node_i node_j index batch : List Nat) (B max_nodes : Nat) :
    Nat → List (List ℝ) → List (List ℝ) → List StepStats
  | 0, _, _ => []
  | n + 1, xp0, xm0 =>
    let xp := wp_propagate row col wp xp0 max_nodes
    let xm := wp_propagate row col wm xm0 max_nodes
    let pos := fun (nodes : List Nat) (g : Nat) => nodes.getD g 0
    let s : StepStats :=
      { np := (List.range B).map fun g =>
          ent xp (pos node_i g) (index.getD (pos node_i g) 0) +
            ent xp (pos node_j g) (index.getD (pos node_j g) 0)
        nm := (List.range B).map fun g =>
          ent xm (pos node_i g) (index.getD (pos node_i g) 0) +
            ent xm (pos node_j g) (index.getD (pos node_j g) 0)
        lp := (List.range B).map fun g =>
          ent xp (pos node_i g) (index.getD (pos node_j g) 0) +
            ent xp (pos node_j g) (index.getD (pos node_i g) 0)
        lm := (List.range B).map fun g =>
          ent xm (pos node_i g) (index.getD (pos node_j g) 0) +
            ent xm (pos node_j g) (index.getD (pos node_i g) 0)
        gl := (List.range B).map fun g =>
          (((List.range batch.length).filter (fun nd => batch.getD nd 0 == g)).map
            (fun nd => ent xp nd (index.getD nd 0))).sum -
          (((List.range batch.length).filter (fun nd => batch.getD nd 0 == g)).map
            (fun nd => ent xm nd (index.getD nd 0))).sum }
    s :: wp_steps row col wp wm node_i node_j index batch B max_nodes n xp xm

/--
Embeds `WalkPooling.forward` (src/models.py lines 988-1081).  The first
statement is the `weight_encoder` call, which raises for every input (see
`F_softmax_tensor_dim`); the remainder embeds the batch bookkeeping, the
reciprocal-pair direction summation of `omega`, the per-head power
iteration and the final feature assembly
`[graphlevel, omega, nodelevel_p, nodelevel_m, linklevel_p, linklevel_m]`.
The column assignments into the `batch_size`-row feature matrices require
one candidate pair per graph (`node_i.length = batch_size`); a mismatch
raises a RuntimeError in torch, embedded as the shape-mismatch error.
-/
noncomputable def wp_forward (p : WPParams) (x : List (List ℝ))
    (edge_index : List Nat × List Nat) (edge_mask : List Bool)
    (batch : List Nat) : Except String (List (List ℝ)) := do
  let (weights_p, weights_m, omega0) ← weight_encoder p x edge_index edge_mask
  let batch_size := batch.foldl Nat.max 0 + 1
  let counts := (List.range batch_size).map fun b => batch.countP (· == b)
  let max_nodes := counts.foldl Nat.max 0
  let index :=
    ((List.range batch_size).map fun b => List.range (counts.getD b 0)).flatten
  let indices_odd := (List.range omega0.length).filter (fun t => t % 2 == 0)
  let indices_even := (List.range omega0.length).filter (fun t => t % 2 == 1)
  let omega := ((select_rows omega0 indices_even).zip
      (select_rows omega0 indices_odd)).map
    (fun ab => (ab.1.zip ab.2).map (fun uv => uv.1 + uv.2))
  let link_ij := select_rows edge_index.1 (not_mask_idx edge_mask)
  let link_ji := select_rows edge_index.2 (not_mask_idx edge_mask)
  let node_i := select_rows link_ij indices_odd
  let node_j := select_rows link_ij indices_even
  let _ := link_ji
  if node_i.length == batch_size && omega.length == batch_size then
    let colOf := fun (w : List (List ℝ)) (h : Nat) =>
      w.map (fun r => r.getD h 0)
    let oneHot : List (List ℝ) := (List.range batch.length).map fun nd =>
      (List.range max_nodes).map fun c =>
        if c == index.getD nd 0 then (1 : ℝ) else 0
    let headStats := (List.range p.heads).map fun h =>
      wp_steps edge_index.1 edge_index.2 (colOf weights_p h)
        (colOf weights_m h) node_i node_j index batch batch_size max_nodes
        p.walk_len
        (wp_propagate edge_index.1 edge_index.2 (colOf weights_p h) oneHot
          max_nodes)
        (wp_propagate edge_index.1 edge_index.2 (colOf weights_m h) oneHot
          max_nodes)
    let statCol := fun (f : StepStats → List ℝ) (g c : Nat) =>
      (f ((headStats.getD (c / p.walk_len) []).getD (c % p.walk_len)
        default)).getD g 0
    let block := fun (f : StepStats → List ℝ) (g : Nat) =>
      (List.range (p.heads * p.walk_len)).map (statCol f g)
    return (List.range batch_size).map fun g =>
      block StepStats.gl g ++ omega.getD g [] ++ block StepStats.np g ++
        block StepStats.nm g ++ block StepStats.lp g ++ block StepStats.lm g
  else
    .error "RuntimeError: shape mismatch in feature assembly"

end WalkPooling

/-! Concrete sample inputs used by the counterexamples and witnesses. -/

/-- A single-node graph built by `from_dense_A` alone: its `ndata`/`edata`
dictionaries are empty (no node or edge features were ever set). -/
def g_nofeat : BaseGraph Int := BaseGraphUtils.from_dense_A [[0]]

/-- A two-node graph built by `from_dense_A` alone. -/
def g_two : BaseGraph Int := BaseGraphUtils.from_dense_A [[0, 0], [0, 0]]

/-- A fully featured single-node graph: `from_dense_A [[0]]` followed by
`set_node_feat` with a `1 x 1` feature matrix (the assertion passes:
`shape[0] = 1 = node_num`) and `set_edge_feat`. -/
def g_full1 : BaseGraph Int :=
  { BaseGraphUtils.from_dense_A [[0]] with
    nfeat := some (.t2 [[5]])
    efeat := some (.t2 [[7]]) }

/-- A second fully featured single-node graph. -/
def g_full2 : BaseGraph Int :=
  { BaseGraphUtils.from_dense_A [[0]] with
    nfeat := some (.t2 [[6]])
    efeat := some (.t2 [[8]]) }

/-- Two-node graph used by the spectral-encoder counterexample. -/
def g_ring2 : BaseGraph Int := BaseGraphUtils.from_dense_A [[0, 1], [1, 0]]

/-- Single-node edgeless graph used by the spectral-encoder witness. -/
def g_single : BaseGraph Int := BaseGraphUtils.from_dense_A [[0]]

/-- Boolean success test for `Except`, used to state that a call never
returns normally. -/
def exceptOk {ε β : Type} : Except ε β → Bool
  | .ok _ => true
  | .error _ => false

/-- Concrete walk-pooling parameters: one head, hidden width one,
walk length two, all layers the identity-like `1`-weight, `0`-bias. -/
noncomputable def wpP1 : WalkPooling.WPParams :=
  { hidden_channels := 1, heads := 1, walk_len := 2,
    Wk1 := [[1]], bk1 := [0], Wq1 := [[1]], bq1 := [0],
    Wk2 := [[1]], bk2 := [0], Wq2 := [[1]], bq2 := [0] }

/-! Claim theorems. -/

/--
C2 (code bug): the spec guarantees that the dense-stacking batcher returns
a record with `batched.adjacency[i] == inputs[i].adjacency` and
`batched.node_features[i] == inputs[i].node_features`; the code instead
raises an `AssertionError` inside `set_node_feat` on every input that
reaches that call, because the freshly built batched record's `node_num`
is never set.  This theorem evaluates the embedded `init_batch_graph` at
the failing input: two identical-size, fully featured single-node graphs.
-/
theorem C2_dense_batch_raises_assertion :
    BaseGraphUtils.init_batch_graph [g_full1, g_full2] =
      .error "AssertionError: set_node_feat" := rfl

/--
C3 (counterexample): the claim states that every input reaching the
dense-stacking branch raises an AssertionError inside `set_node_feat`.
A single graph built by `from_dense_A` alone reaches the dense branch but
raises a `KeyError` earlier, at `get_node_features()` in the collection
loop (src/models.py line 173), because its `ndata` dictionary is empty.
-/
theorem C3_counterexample_keyerror_first :
    BaseGraphUtils.selects_sparse [g_nofeat] = false ∧
      BaseGraphUtils.init_batch_graph [g_nofeat] = .error "KeyError: nfeat" :=
  ⟨rfl, rfl⟩

/--
C4 (counterexample): the claim states the sparse block-union path is
taken whenever node counts differ, regardless of how the graphs were
constructed.  Two `from_dense_A` graphs with node counts 1 and 2 have
differing node counts, yet the branch condition selects the dense path
(`graph_type` is `None`, not `'pyg'`).
-/
theorem C4_counterexample_dense_selected :
    g_nofeat.node_num = some 1 ∧ g_two.node_num = some 2 ∧
      BaseGraphUtils.selects_sparse [g_nofeat, g_two] = false :=
  ⟨rfl, rfl, rfl⟩

/--
C4 (amended): the sparse path is selected only when the first graph's
`graph_type` equals `'pyg'` AND the node counts differ; provenance decides
the branch.  In particular `from_dense_A` always produces `graph_type =
None` (the `__init__` overwrite), any batch whose head is not a
`'pyg'`-typed graph takes the dense branch no matter how the node counts
differ, and whenever the sparse path is not selected `init_batch_graph`
is exactly the dense-stacking branch.
-/
theorem C4_amended_selection_requires_pyg :
    (∀ (A : List (List Int)), (BaseGraphUtils.from_dense_A A).graph_type = none) ∧
    (∀ {α : Type} (g : BaseGraph α) (gs : List (BaseGraph α)),
      g.graph_type ≠ some "pyg" →
        BaseGraphUtils.selects_sparse (g :: gs) = false) ∧
    (∀ {α : Type} (g : BaseGraph α) (gs : List (BaseGraph α)),
      BaseGraphUtils.selects_sparse (g :: gs) = false →
        BaseGraphUtils.init_batch_graph (g :: gs) =
          BaseGraphUtils.dense_branch (g :: gs) g) := by
  refine ⟨fun A => rfl, ?_, ?_⟩
  · intro α g gs hne
    simp only [BaseGraphUtils.selects_sparse, Bool.and_eq_false_iff]
    left
    simpa using hne
  · intro α g gs hsel
    simp [BaseGraphUtils.init_batch_graph, hsel]

/-- C4 amended witness: the amended selection theorem applied at concrete
inputs. -/
theorem C4_amended_selection_witness :
    BaseGraphUtils.selects_sparse [g_nofeat, g_two] = false ∧
      BaseGraphUtils.init_batch_graph [g_nofeat] =
        BaseGraphUtils.dense_branch [g_nofeat] g_nofeat :=
  ⟨C4_amended_selection_requires_pyg.2.1 g_nofeat [g_two] (by decide),
    C4_amended_selection_requires_pyg.2.2 g_nofeat [] rfl⟩

/--
C8 (counterexample): the claim states the spectral encoder fails with a
NumericalError whenever `k >= node_count`.  For the two-node graph and
`k = 2 = node_count`, given any convergent eigendecomposition output
(here eigenvalues `[0, 2]` with eigenvector columns `[1, 1]` and
`[1, -1]`), the embedded encoder returns a normal record whose
`pos_enc` has a single clamped column — no error of any kind is raised.
-/
theorem C8_counterexample_no_failure :
    g_ring2.node_num = some 2 ∧
      (BaseGraphUtils.lap_positional_encoding g_ring2 [0, 2]
          [[1, 1], [1, -1]] 2).pos_enc = some (.t2 [[1, -1]]) :=
  ⟨rfl, rfl⟩

/--
C1 (code bug): the claim states `weights_p` is a non-negative,
per-destination-normalized softmax over all edges.  The code computes
`weights_p = F.softmax(weights, edge_index[1])`, passing the 1-D tensor
`edge_index[1]` as the integer `dim` argument; torch rejects it with a
TypeError for every input, so no `weights_p` is ever produced.  This
theorem evaluates the embedded `weight_encoder` at a two-node, two-edge
input.
-/
theorem C1_plus_softmax_type_error :
    WalkPooling.weight_encoder wpP1 [[1], [1]] ([0, 1], [1, 0]) [true, true] =
      .error "TypeError: softmax argument dim must be int, not Tensor" := rfl

/--
C6 (code bug): the claim describes the minus-graph weights computed at
src/models.py lines 980-984 (candidate edges weighted exactly 0,
non-candidate incoming mass normalized to the sum plus `1e-16`), but the
`weight_encoder` raises a TypeError at the plus-graph softmax on line 977
before those lines run, so no `weights_m` is ever produced.  This theorem
evaluates the embedded `weight_encoder` at a three-node input with one
candidate pair and one structural pair.
-/
theorem C6_minus_weights_never_computed :
    WalkPooling.weight_encoder wpP1 [[1], [1], [0]]
        ([0, 1, 1, 2], [1, 0, 2, 1]) [false, false, true, true] =
      .error "TypeError: softmax argument dim must be int, not Tensor" := rfl

/--
C5 (code bug): the claim states `forward` returns one feature vector per
graph of width `heads * (5 * walk_len + 1)`.  The first statement of
`forward` calls `weight_encoder`, which raises a TypeError at the
plus-graph softmax for every input, so `forward` never returns a feature
matrix.  This theorem evaluates the embedded `wp_forward` at a valid
single-graph batch (one reciprocal candidate pair, two nodes).
-/
theorem C5_forward_type_error :
    WalkPooling.wp_forward wpP1 [[1], [1]] ([0, 1], [1, 0]) [false, false]
        [0, 0] =
      .error "TypeError: softmax argument dim must be int, not Tensor" := rfl

/--
C9 (code bug): the claim states that swapping the stored order of a
candidate pair's two directed edges leaves `omega` and the link-level
statistics of the output unchanged.  The output feature vector is never
produced: `forward` raises the plus-graph softmax TypeError for the input
in either stored order, so neither run yields the `omega` or link-level
values the claim speaks about.  This theorem evaluates the embedded
`wp_forward` on a three-node batch with candidate pair (0,2) in both
stored orders.
-/
theorem C9_forward_raises_in_both_orders :
    WalkPooling.wp_forward wpP1 [[1], [2], [3]]
        ([0, 2, 0, 1, 1, 2], [2, 0, 1, 0, 2, 1])
        [false, false, true, true, true, true] [0, 0, 0] =
      .error "TypeError: softmax argument dim must be int, not Tensor" ∧
    WalkPooling.wp_forward wpP1 [[1], [2], [3]]
        ([2, 0, 0, 1, 1, 2], [0, 2, 1, 0, 2, 1])
        [false, false, true, true, true, true] [0, 0, 0] =
      .error "TypeError: softmax argument dim must be int, not Tensor" :=
  ⟨rfl, rfl⟩

/-! Helper lemmas for the batching claims. -/

/-- On a batched record whose `node_num` was never set, the `set_node_feat`
assertion can only fail: the non-batch disjunct is falsified by
`batch=True` and the batch disjunct compares an `int` with `None`. -/
theorem set_node_feat_batched_isOk_false {α : Type} (g : BaseGraph α)
    (nf : Tens α) (hb : g.batch = true) (hn : g.node_num = none) :
    exceptOk (g.set_node_feat nf) = false := by
  unfold BaseGraph.set_node_feat
  simp only [hb, hn, Bool.not_true, Bool.false_and, if_false, Bool.true_and]
  by_cases hc : (g.batch_num == some nf.shape0) = true
  · simp only [hc, if_true]
    cases nf <;>
      simp [Tens.shape1E, Except.bind, exceptOk, Bind.bind, pure, Except.pure]
  · simp only [hc]
    simp [exceptOk, Bind.bind, Except.bind, pure, Except.pure]

/-- Stronger form when `shape[1]` of the stacked feature tensor is
readable: the failure is exactly the assertion error. -/
theorem set_node_feat_batched_assert {α : Type} (g : BaseGraph α)
    (nf : Tens α) (s1 : Nat) (hb : g.batch = true) (hn : g.node_num = none)
    (h1 : nf.shape1E = .ok s1) :
    g.set_node_feat nf = .error "AssertionError: set_node_feat" := by
  unfold BaseGraph.set_node_feat
  simp only [hb, hn, Bool.not_true, Bool.false_and, if_false, Bool.true_and]
  by_cases hc : (g.batch_num == some nf.shape0) = true
  · simp [hc, h1, Except.bind, Bind.bind, pure, Except.pure]
  · simp [hc, Except.bind, Bind.bind, pure, Except.pure]

/-- The output of a successful `torch.stack` has a readable `shape[1]`:
stacking always adds a leading axis, so the result has rank at least 2. -/
theorem torch_stack_shape1E {α : Type} (ts : List (Tens α)) (t : Tens α)
    (h : torch_stack ts = .ok t) : ∃ s, t.shape1E = Except.ok s := by
  match ts with
  | [] => simp [torch_stack] at h
  | u :: rest =>
    cases u with
    | t1 v =>
      rw [torch_stack] at h
      split at h
      · cases h
        exact ⟨_, rfl⟩
      · cases h
    | t2 m =>
      rw [torch_stack] at h
      split at h
      · cases h
        exact ⟨_, rfl⟩
      · cases h
    | t3 c => simp [torch_stack] at h

/-- Propagation of failure through `Except` bind. -/
theorem exceptOk_bind_false_left {β γ : Type} {e : Except String β}
    (k : β → Except String γ) (h : exceptOk e = false) :
    exceptOk (e >>= k) = false := by
  cases e <;> simp_all [exceptOk, Bind.bind, Except.bind]

/-- The dense-stacking branch never returns normally: whatever the input
graphs are, either the collection loop or a stack raises first, and
otherwise the `set_node_feat` call fails its assertion because the batched
record's `node_num` is `None`. -/
theorem dense_branch_isOk_false {α : Type} (graphs : List (BaseGraph α))
    (g1 : BaseGraph α) :
    exceptOk (BaseGraphUtils.dense_branch graphs g1) = false := by
  unfold BaseGraphUtils.dense_branch
  cases hc : BaseGraphUtils.collect_batch graphs with
  | error e => simp [hc, exceptOk, Bind.bind, Except.bind]
  | ok t =>
    obtain ⟨ta, tn, te, tp, tl⟩ := t
    cases hs : torch_stack_opt ta with
    | error e => simp [hc, hs, exceptOk, Bind.bind, Except.bind]
    | ok A =>
      cases hn : torch_stack tn with
      | error e => simp [hc, hs, hn, exceptOk, Bind.bind, Except.bind]
      | ok nf =>
        simp only [hc, hs, hn, Bind.bind, Except.bind]
        exact exceptOk_bind_false_left _
          (set_node_feat_batched_isOk_false _ nf rfl rfl)

/--
C3 (amended): every non-empty input reaching the dense-stacking branch
fails before returning — but the failure is the AssertionError inside
`set_node_feat` only for inputs whose graphs all carry node and edge
features and whose tensors stack; graphs without features raise a
KeyError earlier in the collection loop, and stacking can raise its own
shape error.  In every case the dense path never returns normally.
Part 1: the dense path always fails.  Part 2: whenever the collection
loop and both stacks succeed, the failure is exactly the `set_node_feat`
assertion (the batched record's `node_num` is `None`).
-/
theorem C3_amended_dense_path_never_returns :
    (∀ {α : Type} (g : BaseGraph α) (gs : List (BaseGraph α)),
      BaseGraphUtils.selects_sparse (g :: gs) = false →
        exceptOk (BaseGraphUtils.init_batch_graph (g :: gs)) = false) ∧
    (∀ {α : Type} (g : BaseGraph α) (gs : List (BaseGraph α))
      (ta : List (Option (Tens α))) (tn te tp tl : List (Tens α))
      (A nf : Tens α),
      BaseGraphUtils.selects_sparse (g :: gs) = false →
      BaseGraphUtils.collect_batch (g :: gs) = .ok (ta, tn, te, tp, tl) →
      torch_stack_opt ta = .ok A →
      torch_stack tn = .ok nf →
        BaseGraphUtils.init_batch_graph (g :: gs) =
          .error "AssertionError: set_node_feat") := by
  constructor
  · intro α g gs hsel
    have h := dense_branch_isOk_false (g :: gs) g
    simpa [BaseGraphUtils.init_batch_graph, hsel] using h
  · intro α g gs ta tn te tp tl A nf hsel hc hs hn
    obtain ⟨s1, hs1⟩ := torch_stack_shape1E tn nf hn
    simp [BaseGraphUtils.init_batch_graph, hsel, BaseGraphUtils.dense_branch,
      hc, hs, hn, set_node_feat_batched_assert, hs1, Bind.bind, Except.bind,
      BaseGraph.init]

/-- C3 amended witness: the amended theorem applied at concrete inputs —
a featureless single graph (part 1) and the fully featured pair from the
C2 failing input (part 2). -/
theorem C3_amended_witness :
    exceptOk (BaseGraphUtils.init_batch_graph [g_nofeat]) = false ∧
      BaseGraphUtils.init_batch_graph [g_full1, g_full2] =
        .error "AssertionError: set_node_feat" :=
  ⟨C3_amended_dense_path_never_returns.1 g_nofeat [] rfl,
    C3_amended_dense_path_never_returns.2 g_full1 [g_full2]
      [some (.t2 [[0]]), some (.t2 [[0]])]
      [.t2 [[5]], .t2 [[6]]] [.t2 [[7]], .t2 [[8]]] [] []
      (.t3 [[[0]], [[0]]]) (.t3 [[[5]], [[6]]]) rfl rfl rfl rfl⟩

/--
C7 (confirmed): for a graph with a fully populated adjacency and
`1 <= k < N`, the spectral positional encoder sorts the eigenpairs by
ascending eigenvalue, discards the rank-0 eigenvector, and stores ranks
`1..k` as `pos_enc`; the stored matrix has `k` columns of `N` entries
(shape `N x k`, stored here column-wise) and the eigenvalues of the
chosen rank window are non-decreasing.  The eigendecomposition of the
normalized Laplacian is external (`np.linalg.eig`); the theorem holds for
every output `(vals, cols)` it could return.
-/
theorem C7_spectral_encoding_shape_and_order {α : Type} [LinearOrder α]
    (g : BaseGraph α) (vals : List α) (cols : List (List α)) (N k : Nat)
    (hvals : vals.length = N) (hcols : cols.length = N)
    (hcl : ∀ c ∈ cols, c.length = N) (hk1 : 1 ≤ k) (hkN : k < N) :
    (BaseGraphUtils.lap_positional_encoding g vals cols k).pos_enc =
        some (.t2 (((BaseGraphUtils.eig_argsorted vals cols).2.drop 1).take k)) ∧
      (((BaseGraphUtils.eig_argsorted vals cols).2.drop 1).take k).length = k ∧
      (∀ c ∈ ((BaseGraphUtils.eig_argsorted vals cols).2.drop 1).take k,
        c.length = N) ∧
      List.Sorted (· ≤ ·)
        (((BaseGraphUtils.eig_argsorted vals cols).1.drop 1).take k) := by
  have hlen : ((vals.zip cols).insertionSort (fun a b => a.1 ≤ b.1)).length = N := by
    rw [List.length_insertionSort, List.length_zip, hvals, hcols, Nat.min_self]
  refine ⟨rfl, ?_, ?_, ?_⟩
  · simp only [BaseGraphUtils.eig_argsorted, List.length_take, List.length_drop,
      List.length_map, hlen]
    omega
  · intro c hcmem
    have h1 : c ∈ (BaseGraphUtils.eig_argsorted vals cols).2 :=
      List.mem_of_mem_drop (List.mem_of_mem_take hcmem)
    simp only [BaseGraphUtils.eig_argsorted, List.mem_map] at h1
    obtain ⟨p, hp, hpc⟩ := h1
    rw [List.mem_insertionSort] at hp
    obtain ⟨a, b⟩ := p
    have hb := (List.of_mem_zip hp).2
    rw [← hpc]
    exact hcl b hb
  · haveI : IsTotal (α × List α) (fun a b => a.1 ≤ b.1) :=
      ⟨fun a b => le_total a.1 b.1⟩
    haveI : IsTrans (α × List α) (fun a b => a.1 ≤ b.1) :=
      ⟨fun _ _ _ hab hbc => le_trans hab hbc⟩
    have hs := List.sorted_insertionSort
      (fun (a b : α × List α) => a.1 ≤ b.1) (vals.zip cols)
    have hmap : ((BaseGraphUtils.eig_argsorted vals cols).1).Pairwise (· ≤ ·) := by
      simp only [BaseGraphUtils.eig_argsorted]
      exact List.pairwise_map.2 hs
    have hsub :
        List.Sublist (((BaseGraphUtils.eig_argsorted vals cols).1.drop 1).take k)
          ((BaseGraphUtils.eig_argsorted vals cols).1) :=
      (List.take_sublist _ _).trans (List.drop_sublist _ _)
    exact hmap.sublist hsub

/-- C7 witness: the confirmed theorem applied at a concrete three-node
input with eigenvalues `[0, 5, 3]` and `k = 1`. -/
theorem C7_spectral_encoding_witness :
    (BaseGraphUtils.lap_positional_encoding (α := Int) g_nofeat [0, 5, 3]
        [[1, 1, 1], [4, 5, 6], [7, 8, 9]] 1).pos_enc =
      some (.t2 (((BaseGraphUtils.eig_argsorted (α := Int) [0, 5, 3]
        [[1, 1, 1], [4, 5, 6], [7, 8, 9]]).2.drop 1).take 1)) ∧
    (((BaseGraphUtils.eig_argsorted (α := Int) [0, 5, 3]
        [[1, 1, 1], [4, 5, 6], [7, 8, 9]]).2.drop 1).take 1).length = 1 :=
  ⟨(C7_spectral_encoding_shape_and_order g_nofeat [0, 5, 3]
      [[1, 1, 1], [4, 5, 6], [7, 8, 9]] 3 1 rfl rfl (by decide)
      (by decide) (by decide)).1,
    (C7_spectral_encoding_shape_and_order g_nofeat [0, 5, 3]
      [[1, 1, 1], [4, 5, 6], [7, 8, 9]] 3 1 rfl rfl (by decide)
      (by decide) (by decide)).2.1⟩

/--
C8 (amended): the encoder has no `k < node_count` check and never raises a
repository `NumericalError`.  Whenever the external eigendecomposition
returns (convergence), the call returns a normal record even for
`k >= N`: numpy slice clamping stores `N - 1` columns instead of `k`.
The only failure mode is an error raised inside the external
`np.linalg.eig` call itself, which is numpy's LinAlgError, not a
`NumericalError` of this repository.
-/
theorem C8_amended_clamped_no_error {α : Type} [LinearOrder α]
    (g : BaseGraph α) (vals : List α) (cols : List (List α)) (N k : Nat)
    (hvals : vals.length = N) (hcols : cols.length = N)
    (hN : 1 ≤ N) (hk : N ≤ k) :
    (BaseGraphUtils.lap_positional_encoding g vals cols k).pos_enc =
        some (.t2 (((BaseGraphUtils.eig_argsorted vals cols).2.drop 1).take k)) ∧
      (((BaseGraphUtils.eig_argsorted vals cols).2.drop 1).take k).length =
        N - 1 := by
  have hlen : ((vals.zip cols).insertionSort (fun a b => a.1 ≤ b.1)).length = N := by
    rw [List.length_insertionSort, List.length_zip, hvals, hcols, Nat.min_self]
  refine ⟨rfl, ?_⟩
  simp only [BaseGraphUtils.eig_argsorted, List.length_take, List.length_drop,
    List.length_map, hlen]
  omega

/-- C8 amended witness: the amended theorem applied at the degenerate
single-node edgeless graph with `k = 1 = node_count`: the call returns a
record with an empty (`1 x 0`) positional encoding, and no error. -/
theorem C8_amended_witness :
    (BaseGraphUtils.lap_positional_encoding (α := Int) g_single [0] [[1]]
        1).pos_enc =
      some (.t2 (((BaseGraphUtils.eig_argsorted (α := Int) [0]
        [[1]]).2.drop 1).take 1)) ∧
    (((BaseGraphUtils.eig_argsorted (α := Int) [0] [[1]]).2.drop 1).take
        1).length = 0 :=
  ⟨(C8_amended_clamped_no_error g_single [0] [[1]] 1 1 rfl rfl (by decide)
      (by decide)).1,
    (C8_amended_clamped_no_error g_single [0] [[1]] 1 1 rfl rfl (by decide)
      (by decide)).2⟩

/-- Invariant used for `to_numpy_array`: a matrix with `n` rows, each of
length `n` and with every entry `1`, keeps that property under writing a
`1` anywhere (the write either re-stores a `1` or falls out of range). -/
theorem set_entry_one_preserves (n : Nat) (m : List (List ℚ)) (a b : Nat)
    (hm : m.length = n ∧ ∀ i, i < n →
      ((m.getD i []).length = n ∧ ∀ j, j < n → (m.getD i []).getD j 0 = 1)) :
    (GnnData.set_entry m a b 1).length = n ∧ ∀ i, i < n →
      (((GnnData.set_entry m a b 1).getD i []).length = n ∧
        ∀ j, j < n → ((GnnData.set_entry m a b 1).getD i []).getD j 0 = 1) := by
  obtain ⟨hlen, hrow⟩ := hm
  constructor
  · simp [GnnData.set_entry, hlen]
  · intro i hi
    by_cases hia : i = a
    · subst hia
      have hilt : i < m.length := by omega
      have hget : (GnnData.set_entry m i b 1).getD i [] =
          (m.getD i []).set b 1 := by
        simp [GnnData.set_entry, List.getD_eq_getElem?_getD,
          List.getElem?_set_self hilt]
      rw [hget]
      refine ⟨by rw [List.length_set]; exact (hrow i hi).1, ?_⟩
      intro j hj
      by_cases hjb : j = b
      · subst hjb
        have hjlt : j < (m.getD i []).length := by rw [(hrow i hi).1]; omega
        rw [List.getD_eq_getElem?_getD, List.getElem?_set_self hjlt]
        rfl
      · simp only [List.getD_eq_getElem?_getD,
          List.getElem?_set_ne (fun h => hjb h.symm)]
        have := (hrow i hi).2 j hj
        simpa [List.getD_eq_getElem?_getD] using this
    · have hget : (GnnData.set_entry m a b 1).getD i [] = m.getD i [] := by
        simp [GnnData.set_entry, List.getD_eq_getElem?_getD,
          List.getElem?_set_ne (fun h => hia h.symm)]
      rw [hget]
      exact hrow i hi

/-- The fold over the edge list preserves the all-ones invariant. -/
theorem to_numpy_fold_ones (n : Nat) :
    ∀ (edges : List (Nat × Nat)) (m : List (List ℚ)),
      (m.length = n ∧ ∀ i, i < n →
        ((m.getD i []).length = n ∧ ∀ j, j < n → (m.getD i []).getD j 0 = 1)) →
      ((edges.foldl (fun m e => GnnData.set_entry m e.1 e.2 1) m).length = n ∧
        ∀ i, i < n →
          (((edges.foldl (fun m e => GnnData.set_entry m e.1 e.2 1) m).getD
              i []).length = n ∧
            ∀ j, j < n →
              ((edges.foldl (fun m e => GnnData.set_entry m e.1 e.2 1)
                m).getD i []).getD j 0 = 1))
  | [], m, hm => hm
  | e :: es, m, hm =>
    to_numpy_fold_ones n es (GnnData.set_entry m e.1 e.2 1)
      (set_entry_one_preserves n m e.1 e.2 hm)

/--
C10 (confirmed): for every `Data` record with `n` nodes and in-range
`edge_index`, `Data.to_numpy_array` returns an `n x n` matrix whose every
entry equals `1`, regardless of which edges are present: the matrix is
initialized with `np.ones` and the edge positions are then (re)set to
`1`, so it never encodes the actual adjacency.
-/
theorem C10_to_numpy_array_all_ones (n : Nat) (edges : List (Nat × Nat))
    (hv : edges.all (fun e => e.1 < n && e.2 < n) = true) :
    GnnData.to_numpy_array n edges =
        .ok (GnnData.to_numpy_array_mat n edges) ∧
      (GnnData.to_numpy_array_mat n edges).length = n ∧
      ∀ i j, i < n → j < n →
        ((GnnData.to_numpy_array_mat n edges).getD i []).getD j 0 = 1 := by
  have hbase : (GnnData.ones_mat n).length = n ∧ ∀ i, i < n →
      (((GnnData.ones_mat n).getD i []).length = n ∧
        ∀ j, j < n → ((GnnData.ones_mat n).getD i []).getD j 0 = 1) := by
    refine ⟨by simp [GnnData.ones_mat], ?_⟩
    intro i hi
    have hrow : (GnnData.ones_mat n).getD i [] = List.replicate n 1 := by
      simp [GnnData.ones_mat, List.getD_eq_getElem?_getD,
        List.getElem?_replicate_of_lt hi]
    rw [hrow]
    refine ⟨by simp, ?_⟩
    intro j hj
    simp [List.getD_eq_getElem?_getD, List.getElem?_replicate_of_lt hj]
  have hfold := to_numpy_fold_ones n edges (GnnData.ones_mat n) hbase
  refine ⟨?_, hfold.1, ?_⟩
  · simp [GnnData.to_numpy_array, hv]
  · intro i j hi hj
    exact (hfold.2 i hi).2 j hj

/-- C10 witness: the confirmed theorem applied at a concrete two-node
record with one directed edge. -/
theorem C10_to_numpy_array_witness :
    GnnData.to_numpy_array 2 [(0, 1)] =
        .ok (GnnData.to_numpy_array_mat 2 [(0, 1)]) ∧
      ((GnnData.to_numpy_array_mat 2 [(0, 1)]).getD 1 []).getD 0 0 = 1 :=
  ⟨(C10_to_numpy_array_all_ones 2 [(0, 1)] (by decide)).1,
    (C10_to_numpy_array_all_ones 2 [(0, 1)] (by decide)).2.2 1 0 (by decide)
      (by decide)⟩
